import Mathlib

/-!
Verification development for the vegam transfer-lifecycle code base.

The TypeScript reducers and helpers of `src/lib/utils.ts` (also shipped as
`src/lib/state-machines.ts`) are embedded shallowly: JavaScript numbers that
hold byte counts become `Nat`, the derived speed becomes `Rat`, strings stay
`String`, and the two `useReducer` state machines become total Lean functions
on inductive state/event types.  The Rust backend (ticket codec, transfer
registry, progress multiplexer) is not part of the available sources; those
components are modelled from the specification and say so in their doc
comments.
-/

/-- Set of characters removed by JavaScript `String.prototype.trim` that can
realistically occur in a pasted ticket (space, tab, and line terminators). -/
def isJsWhitespace (c : Char) : Bool :=
  c = ' ' || c = '\t' || c = '\n' || c = '\r' || c = '\x0b' || c = '\x0c'

/-- Embedding of JavaScript `s.trim()`: drop whitespace from both ends. -/
def jsTrim (s : String) : String :=
  ⟨((s.data.dropWhile isJsWhitespace).reverse.dropWhile isJsWhitespace).reverse⟩

/-- Embedding of `calculateProgress` from `src/lib/utils.ts`: returns `0` when
`total === 0`, otherwise `Math.round((transferred / total) * 100)`.  JavaScript
numbers are modelled by rationals; `Math.round` (round half toward positive
infinity) is Mathlib's `round`. -/
def calculateProgress (transferred total : ℚ) : ℤ :=
  if total = 0 then 0 else round (transferred / total * 100)

/-- The `TransferInfo` record exchanged with the backend (fields as used by
`src/lib/utils.ts` and the components, plus the spec's immutable
`direction`). -/
structure TransferInfo where
  id : String
  file_name : String
  direction : String
  file_size : Nat
  bytes_transferred : Nat
  speed_bps : ℚ
  status : String
  error : Option String
deriving DecidableEq, Repr

/-- The `BlobTicketInfo` payload carried by a successful send (fields as used
by `SendFile.tsx`). -/
structure BlobTicketInfo where
  file_name : String
  file_size : Nat
  ticket : String
deriving DecidableEq, Repr

/-- States of the `SendFile` machine in `src/lib/utils.ts`. -/
inductive SendFileState where
  | idle : SendFileState
  | selecting : SendFileState
  | generating : SendFileState
  | success (data : BlobTicketInfo) : SendFileState
  | error (error : String) : SendFileState
deriving DecidableEq, Repr

/-- Events of the `SendFile` machine in `src/lib/utils.ts`. -/
inductive SendFileEvent where
  | SELECT_FILE : SendFileEvent
  | FILE_SELECTED (path : String) : SendFileEvent
  | FILE_SELECTION_CANCELLED : SendFileEvent
  | TICKET_GENERATED (ticket : BlobTicketInfo) : SendFileEvent
  | ERROR (error : String) : SendFileEvent
  | RESET : SendFileEvent
deriving DecidableEq, Repr

/-- Embedding of `sendFileReducer` from `src/lib/utils.ts`; unhandled
state/event pairs fall through to `return state`. -/
def sendFileReducer (state : SendFileState) (event : SendFileEvent) :
    SendFileState :=
  match state with
  | .idle =>
    match event with
    | .SELECT_FILE => .selecting
    | _ => state
  | .selecting =>
    match event with
    | .FILE_SELECTED _ => .generating
    | .FILE_SELECTION_CANCELLED => .idle
    | .ERROR e => .error e
    | _ => state
  | .generating =>
    match event with
    | .TICKET_GENERATED t => .success t
    | .ERROR e => .error e
    | _ => state
  | .success _ =>
    match event with
    | .RESET => .idle
    | _ => state
  | .error _ =>
    match event with
    | .RESET => .idle
    | _ => state

/-- States of the `ReceiveFile` machine in `src/lib/utils.ts`. -/
inductive ReceiveFileState where
  | idle (ticket : String) : ReceiveFileState
  | parsing_metadata : ReceiveFileState
  | awaiting_path (filename : String) : ReceiveFileState
  | downloading (transfer : TransferInfo) : ReceiveFileState
  | success (transfer : TransferInfo) : ReceiveFileState
  | error (error : String) : ReceiveFileState
deriving DecidableEq, Repr

/-- Events of the `ReceiveFile` machine in `src/lib/utils.ts`. -/
inductive ReceiveFileEvent where
  | SET_TICKET (ticket : String) : ReceiveFileEvent
  | RECEIVE : ReceiveFileEvent
  | METADATA_PARSED (filename : String) : ReceiveFileEvent
  | METADATA_PARSE_FAILED : ReceiveFileEvent
  | PATH_SELECTED (path : String) : ReceiveFileEvent
  | PATH_SELECTION_CANCELLED : ReceiveFileEvent
  | DOWNLOAD_STARTED (transfer : TransferInfo) : ReceiveFileEvent
  | PROGRESS_UPDATE (bytesTransferred fileSize : Nat) : ReceiveFileEvent
  | DOWNLOAD_COMPLETED (transfer : TransferInfo) : ReceiveFileEvent
  | ERROR (error : String) : ReceiveFileEvent
  | RESET : ReceiveFileEvent
deriving DecidableEq, Repr

/-- Embedding of `receiveFileReducer` from `src/lib/utils.ts`.  The guard
`!state.ticket.trim()` is the emptiness test of the trimmed ticket, and
`event.fileSize || state.transfer.file_size` keeps the old size exactly when
the event carries the falsy size `0`. -/
def receiveFileReducer (state : ReceiveFileState) (event : ReceiveFileEvent) :
    ReceiveFileState :=
  match state with
  | .idle ticket =>
    match event with
    | .SET_TICKET t => .idle t
    | .RECEIVE =>
      if (jsTrim ticket).isEmpty then
        .error "Please enter a transfer ticket"
      else
        .parsing_metadata
    | _ => state
  | .parsing_metadata =>
    match event with
    | .METADATA_PARSED f => .awaiting_path f
    | .METADATA_PARSE_FAILED => .awaiting_path "received_file"
    | .ERROR e => .error e
    | _ => state
  | .awaiting_path _ =>
    match event with
    | .PATH_SELECTED _ => state
    | .PATH_SELECTION_CANCELLED => .idle ""
    | .DOWNLOAD_STARTED tr => .downloading tr
    | .ERROR e => .error e
    | _ => state
  | .downloading tr =>
    match event with
    | .PROGRESS_UPDATE b fs =>
      .downloading
        { tr with
          bytes_transferred := b
          file_size := if fs = 0 then tr.file_size else fs }
    | .DOWNLOAD_COMPLETED tr2 => .success tr2
    | .ERROR e => .error e
    | _ => state
  | .success _ =>
    match event with
    | .RESET => .idle ""
    | _ => state
  | .error _ =>
    match event with
    | .RESET => .idle ""
    | _ => state

/-- Bytes transferred shown by a `downloading` state (`0` elsewhere). -/
def stateBytes : ReceiveFileState → Nat
  | .downloading t => t.bytes_transferred
  | _ => 0

/-- File size shown by a `downloading` state (`0` elsewhere). -/
def stateSize : ReceiveFileState → Nat
  | .downloading t => t.file_size
  | _ => 0

/-- Trace of states visited while a list of `PROGRESS_UPDATE` events (pairs of
`bytesTransferred` and `fileSize`) is dispatched, the start state included. -/
def runProgressTrace (st : ReceiveFileState) :
    List (Nat × Nat) → List ReceiveFileState
  | [] => [st]
  | p :: ps =>
    st :: runProgressTrace (receiveFileReducer st (.PROGRESS_UPDATE p.1 p.2)) ps

/-- Sample record used for concrete evaluations: a receive transfer of known
size 10 with 0 bytes moved so far. -/
def sampleTransfer : TransferInfo :=
  { id := "t1"
    file_name := "a.txt"
    direction := "receive"
    file_size := 10
    bytes_transferred := 0
    speed_bps := 0
    status := "inprogress"
    error := none }

/-- Modelled from the spec: the field separator of the shareable ticket
string.  The enhanced format is `filename|size|blob_ticket` (spec §6 and the
repository's architecture notes); the codec itself lives in the Rust backend
(`src-tauri/src/iroh/transfer.rs`, `parse_enhanced_ticket`), which is not
among the available sources. -/
def SEP : Char := '|'

/-- Decimal digit test. -/
def isDigitChar (c : Char) : Bool := '0' ≤ c && c ≤ '9'

/-- Character of a single decimal digit. -/
def digitChar (d : Nat) : Char := Char.ofNat (48 + d)

/-- Fuel-driven digit accumulator: prepends the decimal digits of `n` to
`acc`, most significant first.  The fuel only bounds the recursion depth;
`n + 1` units always suffice. -/
def natToDigitsGo : Nat → Nat → List Char → List Char
  | 0, _, acc => acc
  | fuel + 1, n, acc =>
    if n < 10 then digitChar n :: acc
    else natToDigitsGo fuel (n / 10) (digitChar (n % 10) :: acc)

/-- Decimal representation of a natural number, most significant digit
first. -/
def natToDigits (n : Nat) : List Char := natToDigitsGo (n + 1) n []

/-- Numeric value accumulated from a digit string, left to right. -/
def digitsVal (l : List Char) : Nat :=
  l.foldl (fun n c => n * 10 + (c.toNat - 48)) 0

/-- Modelled from the spec: the decode step "second part parses as a
non-negative integer" — a non-empty all-digit string parses to its value,
anything else fails. -/
def parseNatDigits (l : List Char) : Option Nat :=
  if l ≠ [] ∧ l.all isDigitChar then some (digitsVal l) else none

/-- Split a character list on `SEP`, the way `String.split` and Rust's
`str::split` do: `n` separators give `n + 1` (possibly empty) parts. -/
def splitSep : List Char → List (List Char)
  | [] => [[]]
  | c :: rest =>
    if c = SEP then [] :: splitSep rest
    else
      match splitSep rest with
      | [] => [[c]]
      | p :: ps => (c :: p) :: ps

/-- Modelled from the spec: the `EnhancedTicket` wire value
`{file_name, file_size, locator}`; a legacy ticket is the degenerate case
carrying only a locator, with the documented defaults for the rest. -/
structure Ticket where
  file_name : List Char
  file_size : Nat
  locator : List Char
deriving DecidableEq, Repr

/-- Error taxonomy of the ticket codec (spec §7). -/
inductive TicketError where
  | InvalidTicket : TicketError
  | MetadataUnavailable : TicketError
deriving DecidableEq, Repr

/-- Placeholder file name for legacy tickets. -/
def DEFAULT_NAME : List Char := "received_file".data

/-- Modelled from the spec: `Encode(file_name, file_size, locator)` produces
`file_name + SEP + file_size + SEP + locator` and never fails. -/
def encodeTicket (name : List Char) (size : Nat) (locator : List Char) :
    List Char :=
  name ++ (SEP :: (natToDigits size ++ (SEP :: locator)))

/-- Modelled from the spec: `Decode(ticket_string)` splits on `SEP`; exactly
3 parts with a numeric second part give an `EnhancedTicket`, anything else
falls back to treating the entire string as a bare locator with the
documented defaults, and only the empty string fails (`InvalidTicket`). -/
def decodeTicket (s : List Char) : Except TicketError Ticket :=
  if s = [] then .error .InvalidTicket
  else
    match splitSep s with
    | [name, sz, loc] =>
      match parseNatDigits sz with
      | some n => .ok ⟨name, n, loc⟩
      | none => .ok ⟨DEFAULT_NAME, 0, s⟩
    | _ => .ok ⟨DEFAULT_NAME, 0, s⟩

deriving instance DecidableEq for Except

/-- Transfer status of the spec's data model (§3). -/
inductive TStatus where
  | Pending : TStatus
  | InProgress : TStatus
  | Completed : TStatus
  | Failed : TStatus
  | Cancelled : TStatus
deriving DecidableEq, Repr

/-- Terminal statuses: Completed, Failed, Cancelled. -/
def TStatus.isTerminal : TStatus → Bool
  | .Completed => true
  | .Failed => true
  | .Cancelled => true
  | _ => false

/-- Modelled from the spec: the mutable part of a `TransferRecord` owned by
the Transfer Registry (the Rust backend's registry is not among the available
sources). -/
structure RegRecord where
  status : TStatus
  bytes_transferred : Nat
  file_size : Nat
  error : Option String
deriving DecidableEq, Repr

/-- Registry error (spec §7): mutation of a terminal record. -/
inductive RegError where
  | InvalidTransition : RegError
deriving DecidableEq, Repr

/-- Modelled from the spec: `Complete(id)` — terminal transition, a no-op when
the record is already Completed, `InvalidTransition` when a different terminal
state was already set. -/
def regComplete (r : RegRecord) : Except RegError RegRecord :=
  match r.status with
  | .Completed => .ok r
  | .Failed => .error .InvalidTransition
  | .Cancelled => .error .InvalidTransition
  | _ => .ok { r with status := .Completed }

/-- Modelled from the spec: `Fail(id, error)` — terminal transition recording
the error string; no-op when already Failed, `InvalidTransition` when a
different terminal state was already set. -/
def regFail (r : RegRecord) (e : String) : Except RegError RegRecord :=
  match r.status with
  | .Failed => .ok r
  | .Completed => .error .InvalidTransition
  | .Cancelled => .error .InvalidTransition
  | _ => .ok { r with status := .Failed, error := some e }

/-- Modelled from the spec: `Cancel(id)` — terminal transition; no-op when
already Cancelled, `InvalidTransition` when a different terminal state was
already set. -/
def regCancel (r : RegRecord) : Except RegError RegRecord :=
  match r.status with
  | .Cancelled => .ok r
  | .Completed => .error .InvalidTransition
  | .Failed => .error .InvalidTransition
  | _ => .ok { r with status := .Cancelled }

/-- Modelled from the spec: one step of the Progress Multiplexer (§4.4), which
is implemented in the Rust backend and not among the available sources.  The
state is the last-emitted `(timestamp, bytes)` pair, `none` before the first
sample.  A sample `(t_now, bytes_now)` is emitted iff it is the first, or
`t_now - t_last ≥ throttle`, or `bytes_now = file_size` (the terminal
byte). -/
def muxStep (throttle fileSize : Nat) (st : Option (Nat × Nat))
    (sample : Nat × Nat) : Option (Nat × Nat) × Bool :=
  match st with
  | none => (some sample, true)
  | some (tlast, _) =>
    if throttle ≤ sample.1 - tlast ∨ sample.2 = fileSize then
      (some sample, true)
    else
      (st, false)

/-- Samples emitted by the Progress Multiplexer on a raw sample stream. -/
def muxRun (throttle fileSize : Nat) :
    Option (Nat × Nat) → List (Nat × Nat) → List (Nat × Nat)
  | _, [] => []
  | st, x :: xs =>
    match muxStep throttle fileSize st x with
    | (st', true) => x :: muxRun throttle fileSize st' xs
    | (st', false) => muxRun throttle fileSize st' xs

/-! Lemmas about decimal digits and the ticket split. -/

lemma digitChar_isDigit (d : Nat) (h : d < 10) :
    isDigitChar (digitChar d) = true := by
  interval_cases d <;> decide

lemma digitChar_val (d : Nat) (h : d < 10) : (digitChar d).toNat - 48 = d := by
  interval_cases d <;> decide

lemma natToDigitsGo_ne_nil (fuel n : Nat) (acc : List Char)
    (h : fuel ≠ 0 ∨ acc ≠ []) : natToDigitsGo fuel n acc ≠ [] := by
  induction fuel generalizing n acc with
  | zero => simpa using h.resolve_left (by simp)
  | succ fuel ih =>
    rw [natToDigitsGo]
    split
    · simp
    · exact ih _ _ (Or.inr (by simp))

lemma natToDigitsGo_all (fuel n : Nat) (acc : List Char)
    (hacc : acc.all isDigitChar = true) :
    (natToDigitsGo fuel n acc).all isDigitChar = true := by
  induction fuel generalizing n acc with
  | zero => simpa using hacc
  | succ fuel ih =>
    rw [natToDigitsGo]
    split
    · simpa [digitChar_isDigit n (by omega)] using hacc
    · exact ih _ _ (by simp [hacc, digitChar_isDigit (n % 10) (by omega)])

lemma natToDigitsGo_val (fuel n : Nat) (acc : List Char)
    (h : n < 10 ^ fuel) :
    (natToDigitsGo fuel n acc).foldl (fun m c => m * 10 + (c.toNat - 48)) 0 =
      acc.foldl (fun m c => m * 10 + (c.toNat - 48)) n := by
  induction fuel generalizing n acc with
  | zero =>
    have : n = 0 := by simpa using h
    simp [natToDigitsGo, this]
  | succ fuel ih =>
    rw [natToDigitsGo]
    split
    · next hlt => simp [digitChar_val n hlt]
    · next hge =>
      have hdiv : n / 10 < 10 ^ fuel := by
        rw [pow_succ] at h
        omega
      rw [ih (n / 10) _ hdiv]
      simp only [List.foldl_cons, digitChar_val (n % 10) (by omega)]
      congr 1
      omega

lemma natToDigits_ne_nil (n : Nat) : natToDigits n ≠ [] :=
  natToDigitsGo_ne_nil _ _ _ (Or.inl (by simp))

lemma natToDigits_all (n : Nat) : (natToDigits n).all isDigitChar = true :=
  natToDigitsGo_all _ _ _ (by simp)

lemma digitsVal_natToDigits (n : Nat) : digitsVal (natToDigits n) = n := by
  have hn : n < 10 ^ (n + 1) :=
    lt_of_lt_of_le (Nat.lt_pow_self (by norm_num) n)
      (Nat.pow_le_pow_right (by norm_num) (Nat.le_succ n))
  simpa [digitsVal] using natToDigitsGo_val (n + 1) n [] hn

lemma parseNatDigits_natToDigits (n : Nat) :
    parseNatDigits (natToDigits n) = some n := by
  simp [parseNatDigits, natToDigits_ne_nil, natToDigits_all,
    digitsVal_natToDigits]

lemma sep_not_mem_of_digits (l : List Char) (h : l.all isDigitChar = true) :
    SEP ∉ l := by
  intro hmem
  have := (List.all_eq_true.mp h) SEP hmem
  simp [isDigitChar, SEP] at this

lemma sep_not_mem_natToDigits (n : Nat) : SEP ∉ natToDigits n :=
  sep_not_mem_of_digits _ (natToDigits_all n)

lemma splitSep_ne_nil (l : List Char) : splitSep l ≠ [] := by
  induction l with
  | nil => simp [splitSep]
  | cons c rest ih =>
    rw [splitSep]
    split
    · simp
    · cases hr : splitSep rest with
      | nil => exact absurd hr ih
      | cons p ps => simp [hr]

lemma splitSep_length (l : List Char) :
    (splitSep l).length = l.count SEP + 1 := by
  induction l with
  | nil => simp [splitSep]
  | cons c rest ih =>
    rw [splitSep]
    split
    · next hc =>
      simp [List.count_cons, hc, ih]
    · next hc =>
      cases hr : splitSep rest with
      | nil => exact absurd hr (splitSep_ne_nil rest)
      | cons p ps =>
        rw [hr] at ih
        simp only [List.length_cons] at ih ⊢
        simp [List.count_cons, hc, ih]

lemma splitSep_no_sep (l : List Char) (h : SEP ∉ l) : splitSep l = [l] := by
  induction l with
  | nil => simp [splitSep]
  | cons c rest ih =>
    have hc : ¬c = SEP := fun hcc => h (by simp [hcc])
    have hrest : SEP ∉ rest := fun hm => h (by simp [hm])
    rw [splitSep, if_neg hc, ih hrest]

lemma splitSep_append_sep (xs ys : List Char) (h : SEP ∉ xs) :
    splitSep (xs ++ SEP :: ys) = xs :: splitSep ys := by
  induction xs with
  | nil => simp [splitSep]
  | cons c xs ih =>
    have hc : ¬c = SEP := fun hcc => h (by simp [hcc])
    have hxs : SEP ∉ xs := fun hm => h (by simp [hm])
    rw [List.cons_append, splitSep, if_neg hc, ih hxs]

lemma encodeTicket_ne_nil (name : List Char) (size : Nat) (loc : List Char) :
    encodeTicket name size loc ≠ [] := by
  cases name <;> simp [encodeTicket]

/-- C3 as frozen quantifies only over `locator`; a `file_name` containing the
separator already defeats the round-trip: encoding `("a|b", 10, "loc")` yields
`"a|b|10|loc"`, whose four fields make `Decode` fall back to a legacy ticket
instead of returning the enhanced ticket `{"a|b", 10, "loc"}`. -/
theorem ticket_roundTrip_needs_sepFree_name :
    SEP ∉ "loc".data ∧
      decodeTicket (encodeTicket "a|b".data 10 "loc".data) ≠
        .ok (⟨"a|b".data, 10, "loc".data⟩ : Ticket) := by
  decide

/-- C3 (amended): with the separator absent from both the file name and the
locator, `Decode ∘ Encode` is the identity on `(name, size, locator)` triples
and `Encode` always succeeds (it is a total function). -/
theorem ticket_roundTrip (name : List Char) (size : Nat) (loc : List Char)
    (hname : SEP ∉ name) (hloc : SEP ∉ loc) :
    decodeTicket (encodeTicket name size loc) = .ok ⟨name, size, loc⟩ := by
  have hsplit :
      splitSep (encodeTicket name size loc) = [name, natToDigits size, loc] := by
    rw [encodeTicket, splitSep_append_sep _ _ hname,
      splitSep_append_sep _ _ (sep_not_mem_natToDigits size),
      splitSep_no_sep _ hloc]
  rw [decodeTicket, if_neg (encodeTicket_ne_nil name size loc), hsplit]
  simp [parseNatDigits_natToDigits]

/-- Witness for C3: the spec's own scenario `("a.txt", 10, "xyz")`. -/
theorem ticket_roundTrip_witness :
    SEP ∉ "a.txt".data ∧ SEP ∉ "xyz".data ∧
      decodeTicket (encodeTicket "a.txt".data 10 "xyz".data) =
        .ok (⟨"a.txt".data, 10, "xyz".data⟩ : Ticket) :=
  ⟨by decide, by decide,
    ticket_roundTrip "a.txt".data 10 "xyz".data (by decide) (by decide)⟩

/-- C7: a ticket of the shape `name + SEP + s + SEP + loc` whose middle field
does not parse as a non-negative integer decodes, without failing, to a legacy
ticket whose locator is the whole original string, separators included. -/
theorem malformed_size_fallback (name s loc : List Char)
    (h : parseNatDigits s = none) :
    decodeTicket (name ++ (SEP :: (s ++ (SEP :: loc)))) =
      .ok ⟨DEFAULT_NAME, 0, name ++ (SEP :: (s ++ (SEP :: loc)))⟩ := by
  have hne : name ++ (SEP :: (s ++ (SEP :: loc))) ≠ [] := by
    cases name <;> simp
  rw [decodeTicket, if_neg hne]
  cases hsp : splitSep (name ++ (SEP :: (s ++ (SEP :: loc)))) with
  | nil => exact absurd hsp (splitSep_ne_nil _)
  | cons a rest =>
    cases rest with
    | nil => rfl
    | cons b rest2 =>
      cases rest2 with
      | nil => rfl
      | cons c rest3 =>
        cases rest3 with
        | cons d rest4 => rfl
        | nil =>
          -- Exactly three parts: the string then contains exactly two
          -- separators, so each of the three pieces is separator-free and the
          -- middle part is the non-numeric `s`.
          have hlen := splitSep_length (name ++ (SEP :: (s ++ (SEP :: loc))))
          rw [hsp] at hlen
          simp only [List.length_cons, List.length_nil] at hlen
          have hcount :
              (name ++ (SEP :: (s ++ (SEP :: loc)))).count SEP =
                name.count SEP + s.count SEP + loc.count SEP + 2 := by
            simp [List.count_append, List.count_cons]
            omega
          rw [hcount] at hlen
          have hname : SEP ∉ name := List.count_eq_zero.mp (by omega)
          have hs : SEP ∉ s := List.count_eq_zero.mp (by omega)
          have hloc : SEP ∉ loc := List.count_eq_zero.mp (by omega)
          have hsp2 :
              splitSep (name ++ (SEP :: (s ++ (SEP :: loc)))) =
                [name, s, loc] := by
            rw [splitSep_append_sep _ _ hname, splitSep_append_sep _ _ hs,
              splitSep_no_sep _ hloc]
          rw [hsp] at hsp2
          obtain ⟨rfl, rfl, rfl⟩ : a = name ∧ b = s ∧ c = loc := by
            simpa using hsp2
          simp [h]

/-- Witness for C7: the spec's example `"name|notanumber|loc"`. -/
theorem malformed_size_fallback_witness :
    parseNatDigits "notanumber".data = none ∧
      decodeTicket ("name".data ++ (SEP :: ("notanumber".data ++
          (SEP :: "loc".data)))) =
        .ok ⟨DEFAULT_NAME, 0,
          "name".data ++ (SEP :: ("notanumber".data ++
            (SEP :: "loc".data)))⟩ :=
  ⟨by decide, malformed_size_fallback "name".data "notanumber".data "loc".data
    (by decide)⟩

/-- C5: a bare legacy locator (non-empty, free of the separator) decodes to
the placeholder name `"received_file"` and size `0`, and the corresponding
reducer event `METADATA_PARSE_FAILED` likewise falls back to the filename
`"received_file"`. -/
theorem legacy_ticket_defaults (loc : List Char) (h1 : loc ≠ [])
    (h2 : SEP ∉ loc) :
    decodeTicket loc = .ok ⟨"received_file".data, 0, loc⟩ ∧
      receiveFileReducer .parsing_metadata .METADATA_PARSE_FAILED =
        .awaiting_path "received_file" := by
  refine ⟨?_, rfl⟩
  rw [decodeTicket, if_neg h1, splitSep_no_sep _ h2]
  rfl

/-- Witness for C5: the spec's example locator. -/
theorem legacy_ticket_defaults_witness :
    decodeTicket "some-opaque-locator-string".data =
        .ok ⟨"received_file".data, 0, "some-opaque-locator-string".data⟩ ∧
      receiveFileReducer .parsing_metadata .METADATA_PARSE_FAILED =
        .awaiting_path "received_file" :=
  legacy_ticket_defaults "some-opaque-locator-string".data (by decide)
    (by decide)

lemma regComplete_ok_status (r r' : RegRecord)
    (h : regComplete r = .ok r') : r'.status = .Completed := by
  cases hs : r.status <;> rw [regComplete, hs] at h <;> cases h <;> simp_all

lemma regFail_ok_status (r r' : RegRecord) (e : String)
    (h : regFail r e = .ok r') : r'.status = .Failed := by
  cases hs : r.status <;> rw [regFail, hs] at h <;> cases h <;> simp_all

lemma regCancel_ok_status (r r' : RegRecord)
    (h : regCancel r = .ok r') : r'.status = .Cancelled := by
  cases hs : r.status <;> rw [regCancel, hs] at h <;> cases h <;> simp_all

/-- C6: whichever terminal transition is applied first (`Complete`, `Fail` or
`Cancel`), repeating the same terminal transition afterwards is a no-op
returning the record unchanged, while each of the two other terminal
transitions is rejected with `InvalidTransition` (the registry record is left
untouched: a rejected transition returns no new record). -/
theorem terminal_idempotence (r : RegRecord) (e e' : String) :
    (∀ r', regComplete r = .ok r' →
        regComplete r' = .ok r' ∧
          regFail r' e' = .error .InvalidTransition ∧
          regCancel r' = .error .InvalidTransition) ∧
      (∀ r', regFail r e = .ok r' →
        regFail r' e' = .ok r' ∧
          regComplete r' = .error .InvalidTransition ∧
          regCancel r' = .error .InvalidTransition) ∧
      (∀ r', regCancel r = .ok r' →
        regCancel r' = .ok r' ∧
          regComplete r' = .error .InvalidTransition ∧
          regFail r' e' = .error .InvalidTransition) := by
  refine ⟨fun r' h => ?_, fun r' h => ?_, fun r' h => ?_⟩
  · have hstatus := regComplete_ok_status r r' h
    exact ⟨by rw [regComplete, hstatus], by rw [regFail, hstatus],
      by rw [regCancel, hstatus]⟩
  · have hstatus := regFail_ok_status r r' e h
    exact ⟨by rw [regFail, hstatus], by rw [regComplete, hstatus],
      by rw [regCancel, hstatus]⟩
  · have hstatus := regCancel_ok_status r r' h
    exact ⟨by rw [regCancel, hstatus], by rw [regComplete, hstatus],
      by rw [regFail, hstatus]⟩

/-- Witness for C6: a pending record driven into each of the three terminal
states in turn, then replaying all three terminal transitions on it. -/
theorem terminal_idempotence_witness :
    (regComplete ⟨.Completed, 0, 10, none⟩ = .ok ⟨.Completed, 0, 10, none⟩ ∧
        regFail ⟨.Completed, 0, 10, none⟩ "y" = .error .InvalidTransition ∧
        regCancel ⟨.Completed, 0, 10, none⟩ = .error .InvalidTransition) ∧
      (regFail ⟨.Failed, 0, 10, some "x"⟩ "y" =
          .ok ⟨.Failed, 0, 10, some "x"⟩ ∧
        regComplete ⟨.Failed, 0, 10, some "x"⟩ = .error .InvalidTransition ∧
        regCancel ⟨.Failed, 0, 10, some "x"⟩ = .error .InvalidTransition) ∧
      (regCancel ⟨.Cancelled, 0, 10, none⟩ = .ok ⟨.Cancelled, 0, 10, none⟩ ∧
        regComplete ⟨.Cancelled, 0, 10, none⟩ = .error .InvalidTransition ∧
        regFail ⟨.Cancelled, 0, 10, none⟩ "y" = .error .InvalidTransition) :=
  ⟨(terminal_idempotence ⟨.Pending, 0, 10, none⟩ "x" "y").1
      ⟨.Completed, 0, 10, none⟩ (by decide),
    (terminal_idempotence ⟨.Pending, 0, 10, none⟩ "x" "y").2.1
      ⟨.Failed, 0, 10, some "x"⟩ (by decide),
    (terminal_idempotence ⟨.Pending, 0, 10, none⟩ "x" "y").2.2
      ⟨.Cancelled, 0, 10, none⟩ (by decide)⟩

/-! Lemmas for the Progress Multiplexer bound. -/

lemma muxRun_tail_of_window (samples : List (Nat × Nat)) (t0 fs : Nat)
    (p : Nat × Nat) :
    ∀ tl bl, t0 ≤ tl →
      (∀ q ∈ samples, t0 ≤ q.1 ∧ q.1 ≤ t0 + 50) →
      (∀ q ∈ samples.dropLast, q.2 ≠ fs) →
      samples.getLast? = some p → p.2 = fs →
      muxRun 100 fs (some (tl, bl)) samples = [p] := by
  induction samples with
  | nil => intro tl bl _ _ _ hlast _; cases hlast
  | cons x xs ih =>
    intro tl bl htl hwin hdrop hlast hfs
    cases xs with
    | nil =>
      have hx : x = p := by simpa using hlast
      subst hx
      rw [muxRun, muxStep, if_pos (Or.inr hfs)]
      rfl
    | cons y ys =>
      have hxdrop : x.2 ≠ fs := hdrop x (by simp [List.dropLast])
      have hxwin := hwin x (by simp)
      have hskip : ¬(100 ≤ x.1 - tl ∨ x.2 = fs) := by
        push_neg
        exact ⟨by omega, hxdrop⟩
      rw [muxRun, muxStep, if_neg hskip]
      exact ih tl bl htl (fun q hq => hwin q (by simp [hq]))
        (fun q hq => hdrop q (by simp [List.dropLast] at hq ⊢; tauto))
        (by simpa using hlast) hfs

/-- C8: when every raw sample of a transfer falls inside a 50 ms window, the
multiplexer with a 100 ms throttle emits at most `⌈50/100⌉ + 1 = 2` samples,
and the terminal sample (`bytes_now = file_size`, the only one carrying the
terminal byte) is always among the emitted samples. -/
theorem mux_throttle_bound (samples : List (Nat × Nat)) (t0 fs : Nat)
    (p : Nat × Nat)
    (hwin : ∀ q ∈ samples, t0 ≤ q.1 ∧ q.1 ≤ t0 + 50)
    (hdrop : ∀ q ∈ samples.dropLast, q.2 ≠ fs)
    (hlast : samples.getLast? = some p) (hfs : p.2 = fs) :
    (muxRun 100 fs none samples).length ≤ 2 ∧
      p ∈ muxRun 100 fs none samples := by
  cases samples with
  | nil => cases hlast
  | cons x xs =>
    rw [muxRun, muxStep]
    cases xs with
    | nil =>
      have hx : x = p := by simpa using hlast
      subst hx
      simp [muxRun]
    | cons y ys =>
      have htail :
          muxRun 100 fs (some (x.1, x.2)) (y :: ys) = [p] := by
        refine muxRun_tail_of_window (y :: ys) t0 fs p x.1 x.2
          (hwin x (by simp)).1 (fun q hq => hwin q (by simp [hq]))
          (fun q hq => hdrop q ?_) (by simpa using hlast) hfs
        simp [List.dropLast] at hq ⊢
        tauto
      simp [htail]

/-! Claim theorems about the reducers and the progress helper. -/

lemma runProgressTrace_head (st : ReceiveFileState) (ps : List (Nat × Nat)) :
    (runProgressTrace st ps).head? = some st := by
  cases ps <;> rfl

/-- Sample ticket payload used for concrete evaluations. -/
def sampleBlobTicket : BlobTicketInfo :=
  { file_name := "a.txt", file_size := 10, ticket := "ticket" }

/-- C1 fails on the code: in the `downloading` state of `receiveFileReducer`,
a `PROGRESS_UPDATE` carrying 100 bytes against a known file size of 10 is
stored verbatim — `bytes_transferred` becomes 100, which exceeds `file_size`
instead of being clamped to it. -/
theorem progress_clamp_counterexample :
    stateBytes
        (receiveFileReducer (.downloading sampleTransfer)
          (.PROGRESS_UPDATE 100 10)) = 100 ∧
      stateSize
        (receiveFileReducer (.downloading sampleTransfer)
          (.PROGRESS_UPDATE 100 10)) = 10 ∧
      ¬(100 ≤ 10) :=
  ⟨rfl, rfl, by decide⟩

/-- C1 (amended): a sequence of `PROGRESS_UPDATE` events whose byte counts are
non-decreasing (starting from the record's current count) keeps
`bytes_transferred` non-decreasing along the whole trace; the reducer performs
no clamping, so the counts are stored verbatim. -/
theorem receive_progress_monotone (t : TransferInfo) (ps : List (Nat × Nat))
    (h : List.Chain (· ≤ ·) t.bytes_transferred (ps.map Prod.fst)) :
    List.Chain' (· ≤ ·)
      ((runProgressTrace (.downloading t) ps).map stateBytes) := by
  induction ps generalizing t with
  | nil => exact List.chain'_singleton _
  | cons p ps ih =>
    simp only [List.map_cons, List.chain_cons] at h
    obtain ⟨h1, h2⟩ := h
    have hstep :
        receiveFileReducer (.downloading t) (.PROGRESS_UPDATE p.1 p.2) =
          .downloading
            { t with
              bytes_transferred := p.1
              file_size := if p.2 = 0 then t.file_size else p.2 } := rfl
    rw [runProgressTrace, hstep, List.map_cons, List.chain'_cons']
    constructor
    · intro y hy
      rw [List.head?_map, runProgressTrace_head] at hy
      injection hy with hy
      exact hy ▸ h1
    · exact ih _ h2

/-- Witness for C1 (amended): two updates with growing byte counts. -/
theorem receive_progress_monotone_witness :
    List.Chain (· ≤ ·) sampleTransfer.bytes_transferred
        ([(3, 10), (7, 10)].map Prod.fst) ∧
      List.Chain' (· ≤ ·)
        ((runProgressTrace (.downloading sampleTransfer)
          [(3, 10), (7, 10)]).map stateBytes) :=
  ⟨.cons (by decide) (.cons (by decide) .nil),
    receive_progress_monotone sampleTransfer [(3, 10), (7, 10)]
      (.cons (by decide) (.cons (by decide) .nil))⟩

/-- C2 fails on the code: the terminal `success` state of `sendFileReducer`
reacts to `RESET` by returning to the non-terminal `idle` state, so not every
event leaves a terminal state unchanged. -/
theorem terminal_reset_counterexample :
    sendFileReducer (.success sampleBlobTicket) .RESET = .idle ∧
      SendFileState.idle ≠ .success sampleBlobTicket :=
  ⟨rfl, by decide⟩

/-- C2 (amended): in the terminal states (`success` and `error`) of both
reducers, every event other than `RESET` leaves the state unchanged, and
`RESET` — the one escape hatch — restarts the machine at `idle`. -/
theorem terminal_states_rigid (d : BlobTicketInfo) (tr : TransferInfo)
    (msg : String) (e : SendFileEvent) (e' : ReceiveFileEvent)
    (h : e ≠ .RESET) (h' : e' ≠ .RESET) :
    sendFileReducer (.success d) e = .success d ∧
      sendFileReducer (.error msg) e = .error msg ∧
      receiveFileReducer (.success tr) e' = .success tr ∧
      receiveFileReducer (.error msg) e' = .error msg ∧
      sendFileReducer (.success d) .RESET = .idle ∧
      sendFileReducer (.error msg) .RESET = .idle ∧
      receiveFileReducer (.success tr) .RESET = .idle "" ∧
      receiveFileReducer (.error msg) .RESET = .idle "" := by
  refine ⟨?_, ?_, ?_, ?_, rfl, rfl, rfl, rfl⟩
  · cases e <;> first | rfl | exact absurd rfl h
  · cases e <;> first | rfl | exact absurd rfl h
  · cases e' <;> first | rfl | exact absurd rfl h'
  · cases e' <;> first | rfl | exact absurd rfl h'

/-- Witness for C2 (amended) at concrete terminal states and events. -/
theorem terminal_states_rigid_witness :
    sendFileReducer (.success sampleBlobTicket) .SELECT_FILE =
        .success sampleBlobTicket ∧
      sendFileReducer (.error "boom") .SELECT_FILE = .error "boom" ∧
      receiveFileReducer (.success sampleTransfer) .RECEIVE =
        .success sampleTransfer ∧
      receiveFileReducer (.error "boom") .RECEIVE = .error "boom" ∧
      sendFileReducer (.success sampleBlobTicket) .RESET = .idle ∧
      sendFileReducer (.error "boom") .RESET = .idle ∧
      receiveFileReducer (.success sampleTransfer) .RESET = .idle "" ∧
      receiveFileReducer (.error "boom") .RESET = .idle "" :=
  terminal_states_rigid sampleBlobTicket sampleTransfer "boom" .SELECT_FILE
    .RECEIVE (by decide) (by decide)

/-- C4: dispatching `RECEIVE` in the `idle` state rejects a ticket that is
empty after trimming with the `error` state carrying the message
"Please enter a transfer ticket" (no transfer is started), while any ticket
that is non-empty after trimming — malformed or not — is accepted and moves
the machine to `parsing_metadata`. -/
theorem empty_ticket_rejected (s : String) :
    ((jsTrim s).isEmpty = true →
        receiveFileReducer (.idle s) .RECEIVE =
          .error "Please enter a transfer ticket") ∧
      ((jsTrim s).isEmpty = false →
        receiveFileReducer (.idle s) .RECEIVE = .parsing_metadata) := by
  constructor <;> intro h <;> simp [receiveFileReducer, h]

/-- Witness for C4: a whitespace-only ticket and a malformed non-empty one. -/
theorem empty_ticket_rejected_witness :
    receiveFileReducer (.idle " \t ") .RECEIVE =
        .error "Please enter a transfer ticket" ∧
      receiveFileReducer (.idle " not-a-ticket ") .RECEIVE =
        .parsing_metadata :=
  ⟨(empty_ticket_rejected " \t ").1 (by decide),
    (empty_ticket_rejected " not-a-ticket ").2 (by decide)⟩

/-- C9: a `PROGRESS_UPDATE` in the `downloading` state keeps the machine in
`downloading` and only rewrites `bytes_transferred` (to the event's count) and
`file_size` (to the event's size unless that size is the falsy `0`, in which
case the previous size is kept); `id`, `file_name`, `direction`, `status` and
`error` are untouched. -/
theorem progress_update_frame (t : TransferInfo) (b fs : Nat) :
    ∃ t', receiveFileReducer (.downloading t) (.PROGRESS_UPDATE b fs) =
        .downloading t' ∧
      t'.id = t.id ∧ t'.file_name = t.file_name ∧
      t'.direction = t.direction ∧ t'.status = t.status ∧
      t'.error = t.error ∧ t'.bytes_transferred = b ∧
      t'.file_size = (if fs = 0 then t.file_size else fs) :=
  ⟨_, rfl, rfl, rfl, rfl, rfl, rfl, rfl, rfl⟩

/-- C10: `calculateProgress` is total and never divides by zero — it returns
`0` when `total = 0` and `round((transferred / total) * 100)` otherwise. -/
theorem calculateProgress_guard (t total : ℚ) :
    calculateProgress t 0 = 0 ∧
      (total ≠ 0 → calculateProgress t total = round (t / total * 100)) :=
  ⟨by simp [calculateProgress], fun h => by simp [calculateProgress, h]⟩

/-- Witness for C10 at `total = 0` and `total = 10`. -/
theorem calculateProgress_guard_witness :
    calculateProgress 5 0 = 0 ∧
      calculateProgress 5 10 = round ((5 : ℚ) / 10 * 100) :=
  ⟨(calculateProgress_guard 5 0).1,
    (calculateProgress_guard 5 10).2 (by norm_num)⟩

/-- Witness for C8: three samples inside a 50 ms window, the last one carrying
the terminal byte; exactly the first and the last are emitted. -/
theorem mux_throttle_bound_witness :
    (muxRun 100 10 none [(0, 1), (10, 5), (50, 10)]).length ≤ 2 ∧
      ((50 : Nat), (10 : Nat)) ∈ muxRun 100 10 none [(0, 1), (10, 5), (50, 10)] :=
  mux_throttle_bound [(0, 1), (10, 5), (50, 10)] 0 10 (50, 10) (by decide)
    (by decide) (by decide) (by decide)
